import Mathlib

/-! Verification of the DebouncedButton debouncing / gesture-recognition state
machine (src/DebouncedButton.h, src/DebouncedButton.cpp).

The C++ class is embedded shallowly: the member fields become a structure of
`Bool`s and `Nat`s (the `uint32_t` fields always hold values `< 2^32`; the
32-bit wrapping subtraction is made explicit by `sub32`), and the mutating
member function `update` becomes a pure function from the old state and the
call arguments to the returned `Input` paired with the new state.
-/

namespace DebouncedButton

/-- The modulus 2^32 of the `uint32_t` arithmetic used by the source. -/
def U32MOD : Nat := 4294967296

/-- The `DebouncedButton::Input` enum. -/
inductive Input where
  | NONE
  | CLICK
  | DOUBLE_CLICK
  | LONG_PRESS
  | CLICK_AND_LONG_PRESS
  | DOUBLE_CLICK_AND_LONG_PRESS
  | RELEASE
deriving DecidableEq

/-- The private `DebouncedButton::State` enum. -/
inductive State where
  | IDLE
  | PRESSED
  | PRESSED_PENDING
  | CLICKED_PENDING
  | CLICKED_PRESSED_PENDING
  | DOUBLE_CLICKED_PENDING
  | DOUBLE_CLICKED_PRESSED_PENDING

/-- The constant `DebouncedButton::DEBOUNCE_MS`. -/
def DEBOUNCE_MS : Nat := 20

/-- The constant `DebouncedButton::CLICKED_CUTOFF_MS`. -/
def CLICKED_CUTOFF_MS : Nat := 150

/-- The constant `DebouncedButton::DOUBLE_CLICK_TIMEOUT_MS`. -/
def DOUBLE_CLICK_TIMEOUT_MS : Nat := 150

/-- The member fields of a `DebouncedButton` instance.  The `uint32_t`
timestamp fields are modelled as `Nat`; `update` only ever stores values
reduced mod `2^32`. -/
structure DB where
  pressed_state : Bool
  state : State
  prev_reading : Bool
  debounced_reading : Bool
  last_reading_change_tm : Nat
  last_change_tm : Nat
  prev_last_change_tm : Nat

/-- The constructor `DebouncedButton::DebouncedButton(bool pressed_state)`:
in-class initializers give `IDLE`, `false` readings and zero timestamps, then
the constructor body sets `_prev_reading = !pressed_state`. -/
def mk (pressed_state : Bool) : DB :=
  { pressed_state := pressed_state
    state := State.IDLE
    prev_reading := !pressed_state
    debounced_reading := false
    last_reading_change_tm := 0
    last_change_tm := 0
    prev_last_change_tm := 0 }

/-- Wrapping 32-bit subtraction on `uint32_t` values. -/
def sub32 (a b : Nat) : Nat :=
  (U32MOD + a % U32MOD - b % U32MOD) % U32MOD

/-- The polarity normalization at the top of `update`:
`if (!_pressed_state) reading = !reading;`. -/
def DB.normalize (db : DB) (reading : Bool) : Bool :=
  if !db.pressed_state then !reading else reading

/-- The accessor `duration(uint32_t tm) const`:
`max(uint32_t(0), tm - _last_change_tm)` — a `max` with `0` over the
32-bit wrapping subtraction. -/
def DB.duration (db : DB) (tm : Nat) : Nat :=
  max 0 (sub32 tm db.last_change_tm)

/-- The accessor `state() const`: `_debounced_reading == _pressed_state`.
(Named `buttonState` here because `state` is taken by the `_state` field.) -/
def DB.buttonState (db : DB) : Bool :=
  db.debounced_reading == db.pressed_state

/-- The accessor `prev_duration(uint32_t tm) const`:
`_last_change_tm - _prev_last_change_tm` (32-bit wrapping). -/
def DB.prev_duration (db : DB) (_tm : Nat) : Nat :=
  sub32 db.last_change_tm db.prev_last_change_tm

/-- The body of `update`'s debounced-change branch (the `if/else if` chain
on `_state` at src/DebouncedButton.cpp lines 52-72, followed by the
assignments to `_debounced_reading`, `_prev_last_change_tm` and
`_last_change_tm`).  `reading` is the already-normalized reading and `tm`
the already-reduced timestamp. -/
def DB.edgeStep (db : DB) (reading : Bool) (tm : Nat) : Input × DB :=
  let next :=
    match db.state with
    | State.IDLE => (Input.NONE, State.PRESSED_PENDING)
    | State.PRESSED_PENDING => (Input.NONE, State.CLICKED_PENDING)
    | State.PRESSED => (Input.RELEASE, State.IDLE)
    | State.CLICKED_PENDING => (Input.NONE, State.CLICKED_PRESSED_PENDING)
    | State.CLICKED_PRESSED_PENDING => (Input.NONE, State.DOUBLE_CLICKED_PENDING)
    | State.DOUBLE_CLICKED_PENDING => (Input.NONE, State.DOUBLE_CLICKED_PRESSED_PENDING)
    | State.DOUBLE_CLICKED_PRESSED_PENDING => (Input.DOUBLE_CLICK, State.CLICKED_PENDING)
  (next.1,
    { db with
        state := next.2
        debounced_reading := reading
        prev_last_change_tm := db.last_change_tm
        last_change_tm := tm })

/-- The body of `update`'s dwell branch (the `else` chain at
src/DebouncedButton.cpp lines 74-100): the duration-driven transitions.
`tm` is the already-reduced timestamp. -/
def DB.dwellStep (db : DB) (tm : Nat) : Input × DB :=
  match db.state with
  | State.CLICKED_PENDING =>
      if db.duration tm > DOUBLE_CLICK_TIMEOUT_MS then
        (Input.CLICK, { db with state := State.IDLE })
      else (Input.NONE, db)
  | State.PRESSED_PENDING =>
      if db.duration tm ≥ CLICKED_CUTOFF_MS then
        (Input.LONG_PRESS, { db with state := State.PRESSED })
      else (Input.NONE, db)
  | State.CLICKED_PRESSED_PENDING =>
      if db.duration tm ≥ CLICKED_CUTOFF_MS then
        (Input.CLICK_AND_LONG_PRESS, { db with state := State.PRESSED })
      else (Input.NONE, db)
  | State.DOUBLE_CLICKED_PENDING =>
      if db.duration tm ≥ CLICKED_CUTOFF_MS then
        (Input.DOUBLE_CLICK, { db with state := State.IDLE })
      else (Input.NONE, db)
  | State.DOUBLE_CLICKED_PRESSED_PENDING =>
      if db.duration tm ≥ CLICKED_CUTOFF_MS then
        (Input.DOUBLE_CLICK_AND_LONG_PRESS, { db with state := State.PRESSED })
      else (Input.NONE, db)
  | _ => (Input.NONE, db)

/-- The member function `DebouncedButton::update(bool reading, uint32_t tm)`, translated
branch for branch from src/DebouncedButton.cpp.  The returned pair is the
returned `Input` together with the instance state after the call. -/
def DB.update (db : DB) (reading : Bool) (tm : Nat) : Input × DB :=
  let tm := tm % U32MOD
  let reading := db.normalize reading
  if db.prev_reading ≠ reading then
    (Input.NONE,
      { db with last_reading_change_tm := tm, prev_reading := reading })
  else
    let reading_duration := sub32 tm db.last_reading_change_tm
    if db.debounced_reading ≠ reading then
      if reading_duration < DEBOUNCE_MS then
        (Input.NONE, db)
      else
        db.edgeStep reading tm
    else
      db.dwellStep tm

/-- The instance state reached after feeding a script of
`(raw reading, timestamp)` pairs through `update`. -/
def runState (db : DB) : List (Bool × Nat) → DB
  | [] => db
  | (r, t) :: rest => runState (db.update r t).2 rest

/-- The sequence of `Input` values returned while feeding a script of
`(raw reading, timestamp)` pairs through `update`. -/
def runOutputs (db : DB) : List (Bool × Nat) → List Input
  | [] => []
  | (r, t) :: rest => (db.update r t).1 :: runOutputs (db.update r t).2 rest

/-- Pointwise negation of the raw readings of a script. -/
def invScript (script : List (Bool × Nat)) : List (Bool × Nat) :=
  script.map (fun p => (!p.1, p.2))

/-- The timestamps of a script are non-decreasing. -/
def timesSorted : List (Bool × Nat) → Bool
  | [] => true
  | [_] => true
  | a :: b :: rest => Nat.ble a.2 b.2 && timesSorted (b :: rest)

/-- Consecutive raw readings of a script all differ (the raw signal
alternates on every call). -/
def alternating : List (Bool × Nat) → Bool
  | [] => true
  | [_] => true
  | a :: b :: rest => (a.1 != b.1) && alternating (b :: rest)

/-- Consecutive timestamps of a script are all less than `n` apart. -/
def gapsLt (n : Nat) : List (Bool × Nat) → Bool
  | [] => true
  | [_] => true
  | a :: b :: rest => Nat.blt (b.2 - a.2) n && gapsLt n (b :: rest)

/-! ### Shared lemmas about the embedded code -/

theorem sub32_of_le {a b : Nat} (hba : b ≤ a) (ha : a < U32MOD) :
    sub32 a b = a - b := by
  have hb : b < U32MOD := lt_of_le_of_lt hba ha
  unfold sub32
  rw [Nat.mod_eq_of_lt ha, Nat.mod_eq_of_lt hb, Nat.add_sub_assoc hba,
    Nat.add_mod_left, Nat.mod_eq_of_lt (by omega)]

/-- The raw-change branch of `update`. -/
theorem update_change (db : DB) (reading : Bool) (tm : Nat)
    (h : db.normalize reading ≠ db.prev_reading) :
    db.update reading tm =
      (Input.NONE,
        { db with
            last_reading_change_tm := tm % U32MOD
            prev_reading := db.normalize reading }) := by
  simp only [DB.update]
  rw [if_pos (Ne.symm h)]

/-- The not-yet-stable branch of `update`: the reading is stable but has not
yet held for the debounce interval, so nothing changes. -/
theorem update_reject (db : DB) (reading : Bool) (tm : Nat)
    (h1 : db.normalize reading = db.prev_reading)
    (h2 : db.normalize reading ≠ db.debounced_reading)
    (h3 : sub32 (tm % U32MOD) db.last_reading_change_tm < DEBOUNCE_MS) :
    db.update reading tm = (Input.NONE, db) := by
  simp only [DB.update]
  rw [if_neg (by rw [h1]; exact fun hc => hc rfl), if_pos (Ne.symm h2), if_pos h3]

/-- The debounced-change branch of `update`: a stable changed reading past
the debounce interval is accepted and `edgeStep` runs. -/
theorem update_accept (db : DB) (reading : Bool) (tm : Nat)
    (h1 : db.normalize reading = db.prev_reading)
    (h2 : db.normalize reading ≠ db.debounced_reading)
    (h3 : ¬ sub32 (tm % U32MOD) db.last_reading_change_tm < DEBOUNCE_MS) :
    db.update reading tm = db.edgeStep (db.normalize reading) (tm % U32MOD) := by
  simp only [DB.update]
  rw [if_neg (by rw [h1]; exact fun hc => hc rfl), if_pos (Ne.symm h2), if_neg h3]

/-- The dwell branch of `update`: the reading is stable and already equals
the debounced reading, so `dwellStep` runs. -/
theorem update_dwell (db : DB) (reading : Bool) (tm : Nat)
    (h1 : db.normalize reading = db.prev_reading)
    (h2 : db.normalize reading = db.debounced_reading) :
    db.update reading tm = db.dwellStep (tm % U32MOD) := by
  simp only [DB.update]
  rw [if_neg (by rw [h1]; exact fun hc => hc rfl),
    if_neg (by rw [h2]; exact fun hc => hc rfl)]

/-- Frame lemma: `dwellStep` never touches `debounced_reading` (it only rewrites the
gesture state). -/
theorem dwellStep_frame (db : DB) (tm : Nat) :
    (db.dwellStep tm).2.prev_reading = db.prev_reading ∧
    (db.dwellStep tm).2.debounced_reading = db.debounced_reading ∧
    (db.dwellStep tm).2.last_reading_change_tm = db.last_reading_change_tm ∧
    (db.dwellStep tm).2.last_change_tm = db.last_change_tm ∧
    (db.dwellStep tm).2.prev_last_change_tm = db.prev_last_change_tm ∧
    (db.dwellStep tm).2.pressed_state = db.pressed_state := by
  unfold DB.dwellStep
  split <;> (try split) <;> exact ⟨rfl, rfl, rfl, rfl, rfl, rfl⟩

theorem runOutputs_append (db : DB) (s1 s2 : List (Bool × Nat)) :
    runOutputs db (s1 ++ s2) = runOutputs db s1 ++ runOutputs (runState db s1) s2 := by
  induction s1 generalizing db with
  | nil => rfl
  | cons p rest ih =>
      obtain ⟨r, t⟩ := p
      simp [runOutputs, runState, ih]

/-- The gesture states during which the debounced (normalized) reading is
pressed: `PRESSED`, `PRESSED_PENDING`, `CLICKED_PRESSED_PENDING` and
`DOUBLE_CLICKED_PRESSED_PENDING`. -/
def pressedGroup : State → Bool
  | State.PRESSED => true
  | State.PRESSED_PENDING => true
  | State.CLICKED_PRESSED_PENDING => true
  | State.DOUBLE_CLICKED_PRESSED_PENDING => true
  | _ => false

/-- One `update` call preserves the agreement between `_debounced_reading`
and the gesture-state group. -/
theorem pressedGroup_update (db : DB) (r : Bool) (tm : Nat)
    (h : db.debounced_reading = pressedGroup db.state) :
    (db.update r tm).2.debounced_reading = pressedGroup (db.update r tm).2.state := by
  by_cases h1 : db.normalize r = db.prev_reading
  · by_cases h2 : db.normalize r = db.debounced_reading
    · rw [update_dwell db r tm h1 h2]
      unfold DB.dwellStep
      split <;> (try split) <;> simp_all [pressedGroup]
    · by_cases h3 : sub32 (tm % U32MOD) db.last_reading_change_tm < DEBOUNCE_MS
      · rw [update_reject db r tm h1 h2 h3]; exact h
      · rw [update_accept db r tm h1 h2 h3]
        unfold DB.edgeStep
        split <;> simp_all [pressedGroup]
  · rw [update_change db r tm h1]; exact h

/-- C9 (confirmed).  In every state reachable from a freshly constructed
instance by any sequence of `update` calls, `_debounced_reading` is `true`
exactly when `_state` is one of `PRESSED`, `PRESSED_PENDING`,
`CLICKED_PRESSED_PENDING`, `DOUBLE_CLICKED_PRESSED_PENDING`, and `false`
exactly on the other three states. -/
theorem c9_state_reading_agreement (p : Bool) (script : List (Bool × Nat)) :
    (runState (mk p) script).debounced_reading =
      pressedGroup (runState (mk p) script).state := by
  have haux : ∀ (db : DB), db.debounced_reading = pressedGroup db.state →
      (runState db script).debounced_reading =
        pressedGroup (runState db script).state := by
    induction script with
    | nil => intro db h; exact h
    | cons pr rest ih =>
        intro db h
        obtain ⟨r, t⟩ := pr
        exact ih _ (pressedGroup_update db r t h)
  exact haux (mk p) rfl

/-- C4 (confirmed).  Whenever the normalized reading differs from the
previously seen normalized reading, the call records the timestamp as the
last raw change time, stores the new normalized reading, changes no other
field, and returns `NONE`. -/
theorem c4_change_restarts_window (db : DB) (reading : Bool) (tm : Nat)
    (hne : db.normalize reading ≠ db.prev_reading) (htm : tm < U32MOD) :
    db.update reading tm =
      (Input.NONE,
        { db with
            prev_reading := db.normalize reading
            last_reading_change_tm := tm }) := by
  rw [update_change db reading tm hne, Nat.mod_eq_of_lt htm]

/-- Witness for C4 at a fresh default instance read `true` at `t = 7`. -/
theorem c4_witness :
    (mk true).update true 7 =
      (Input.NONE,
        { mk true with
            prev_reading := (mk true).normalize true
            last_reading_change_tm := 7 }) :=
  c4_change_restarts_window (mk true) true 7 (by decide) (by decide)

/-- C5 (code bug).  The claim — and the accessor's own doc comment —
say `duration(tm)` is 0 when `tm` precedes `_last_change_tm`.  But
`max(uint32_t(0), tm - _last_change_tm)` is an unsigned wrapping
subtraction under a no-op `max`: at the reachable state after a press is
debounce-accepted at `t = 20`, `duration(10)` returns `2^32 - 10`, not 0. -/
theorem c5_duration_wraps :
    (runState (mk true) [(true, 0), (true, 20)]).last_change_tm = 20 ∧
    10 < (runState (mk true) [(true, 0), (true, 20)]).last_change_tm ∧
    (runState (mk true) [(true, 0), (true, 20)]).duration 10 = 4294967286 :=
  ⟨rfl, by decide, rfl⟩

/-- C8 (confirmed).  `update` is a pure function of the instance state
and the `(reading, timestamp)` arguments: two freshly constructed instances
of the same polarity fed the same script produce identical output sequences
and identical final states. -/
theorem c8_update_deterministic (p : Bool) (script : List (Bool × Nat))
    (b1 b2 : DB) (h1 : b1 = mk p) (h2 : b2 = mk p)
    (_hsorted : timesSorted script = true) :
    runOutputs b1 script = runOutputs b2 script ∧
    runState b1 script = runState b2 script := by
  subst h1; subst h2; exact ⟨rfl, rfl⟩

/-- Witness for C8 on a concrete two-call script. -/
theorem c8_witness :
    runOutputs (mk true) [(true, 0), (true, 20)] =
      runOutputs (mk true) [(true, 0), (true, 20)] ∧
    runState (mk true) [(true, 0), (true, 20)] =
      runState (mk true) [(true, 0), (true, 20)] :=
  c8_update_deterministic true [(true, 0), (true, 20)] (mk true) (mk true)
    rfl rfl rfl

/-- C10 (confirmed).  For an inverted-polarity instance, `state()` is
`_debounced_reading == _pressed_state`, the negation of the debounced
normalized (pressed) reading: it returns `true` immediately after
construction, before any press, and `false` once a debounced press has been
accepted (here via `update(false, 0)`, `update(false, 20)`). -/
theorem c10_inverted_polarity_state :
    (∀ db : DB, db.pressed_state = false →
        db.buttonState = !db.debounced_reading) ∧
    (mk false).buttonState = true ∧
    (runState (mk false) [(false, 0), (false, 20)]).debounced_reading = true ∧
    (runState (mk false) [(false, 0), (false, 20)]).buttonState = false := by
  refine ⟨?_, rfl, rfl, rfl⟩
  intro db hp
  show (db.debounced_reading == db.pressed_state) = !db.debounced_reading
  rw [hp]
  cases db.debounced_reading <;> rfl

/-- Witness for C10's universally quantified part at `mk false`. -/
theorem c10_witness :
    (mk false).pressed_state = false ∧
    (mk false).buttonState = !(mk false).debounced_reading :=
  ⟨rfl, c10_inverted_polarity_state.1 (mk false) rfl⟩

/-- The edge-driven transition table exactly as stated by the spec (next
state column), for comparison against the code's debounced-change branch. -/
def specEdgeNext : State → State
  | State.IDLE => State.PRESSED_PENDING
  | State.PRESSED_PENDING => State.CLICKED_PENDING
  | State.PRESSED => State.IDLE
  | State.CLICKED_PENDING => State.CLICKED_PRESSED_PENDING
  | State.CLICKED_PRESSED_PENDING => State.DOUBLE_CLICKED_PENDING
  | State.DOUBLE_CLICKED_PENDING => State.DOUBLE_CLICKED_PRESSED_PENDING
  | State.DOUBLE_CLICKED_PRESSED_PENDING => State.CLICKED_PENDING

/-- The edge-driven transition table exactly as stated by the spec (emitted
gesture column): `Release` on `Pressed -> Idle`, `DoubleClick` on
`DoubleClickedPressedPending -> ClickedPending`, nothing elsewhere. -/
def specEdgeEmit : State → Input
  | State.PRESSED => Input.RELEASE
  | State.DOUBLE_CLICKED_PRESSED_PENDING => Input.DOUBLE_CLICK
  | _ => Input.NONE

/-- C1 (confirmed).  When a debounced change is accepted (the stable
normalized reading differs from the debounced reading and has been stable
for at least `DEBOUNCE_MS`), the call returns `specEdgeEmit`, advances the
gesture state to `specEdgeNext`, sets `debounced_reading` to the new value,
shifts `prev_last_change_tm := last_change_tm` and sets
`last_change_tm := tm`, leaving all other fields unchanged. -/
theorem c1_edge_transitions (db : DB) (reading : Bool) (tm : Nat)
    (h1 : db.normalize reading = db.prev_reading)
    (h2 : db.normalize reading ≠ db.debounced_reading)
    (hle : db.last_reading_change_tm ≤ tm) (htm : tm < U32MOD)
    (hstable : DEBOUNCE_MS ≤ tm - db.last_reading_change_tm) :
    db.update reading tm =
      (specEdgeEmit db.state,
        { db with
            state := specEdgeNext db.state
            debounced_reading := db.normalize reading
            prev_last_change_tm := db.last_change_tm
            last_change_tm := tm }) := by
  have hmod : tm % U32MOD = tm := Nat.mod_eq_of_lt htm
  have hsub : sub32 (tm % U32MOD) db.last_reading_change_tm =
      tm - db.last_reading_change_tm := by
    rw [hmod]; exact sub32_of_le hle htm
  rw [update_accept db reading tm h1 h2 (by rw [hsub]; omega), hmod]
  unfold DB.edgeStep
  cases db.state <;> rfl

/-- Witness for C1: fresh default instance whose raw press at `t = 0` has
been seen once, read again at `t = 20`. -/
theorem c1_witness :
    (⟨true, State.IDLE, true, false, 0, 0, 0⟩ : DB).update true 20 =
      (specEdgeEmit State.IDLE,
        { (⟨true, State.IDLE, true, false, 0, 0, 0⟩ : DB) with
            state := specEdgeNext State.IDLE
            debounced_reading :=
              (⟨true, State.IDLE, true, false, 0, 0, 0⟩ : DB).normalize true
            prev_last_change_tm := 0
            last_change_tm := 20 }) :=
  c1_edge_transitions ⟨true, State.IDLE, true, false, 0, 0, 0⟩ true 20
    (by decide) (by decide) (by decide) (by decide) (by decide)

/-- C2 (confirmed).  In the dwell branch (stable normalized reading
equal to the debounced reading) the duration-driven transitions fire with
exactly the stated boundary comparisons: `ClickedPending` emits `Click` and
becomes `Idle` iff `duration(tm) > DOUBLE_CLICK_TIMEOUT_MS`; the four other
pending states fire iff `duration(tm) >= CLICKED_CUTOFF_MS`; `Idle` and
`Pressed` emit nothing and change nothing. -/
theorem c2_dwell_transitions (db : DB) (reading : Bool) (tm : Nat)
    (h1 : db.normalize reading = db.prev_reading)
    (h2 : db.normalize reading = db.debounced_reading)
    (htm : tm < U32MOD) :
    (db.state = State.CLICKED_PENDING →
        db.update reading tm =
          if db.duration tm > DOUBLE_CLICK_TIMEOUT_MS then
            (Input.CLICK, { db with state := State.IDLE })
          else (Input.NONE, db)) ∧
    (db.state = State.PRESSED_PENDING →
        db.update reading tm =
          if db.duration tm ≥ CLICKED_CUTOFF_MS then
            (Input.LONG_PRESS, { db with state := State.PRESSED })
          else (Input.NONE, db)) ∧
    (db.state = State.CLICKED_PRESSED_PENDING →
        db.update reading tm =
          if db.duration tm ≥ CLICKED_CUTOFF_MS then
            (Input.CLICK_AND_LONG_PRESS, { db with state := State.PRESSED })
          else (Input.NONE, db)) ∧
    (db.state = State.DOUBLE_CLICKED_PENDING →
        db.update reading tm =
          if db.duration tm ≥ CLICKED_CUTOFF_MS then
            (Input.DOUBLE_CLICK, { db with state := State.IDLE })
          else (Input.NONE, db)) ∧
    (db.state = State.DOUBLE_CLICKED_PRESSED_PENDING →
        db.update reading tm =
          if db.duration tm ≥ CLICKED_CUTOFF_MS then
            (Input.DOUBLE_CLICK_AND_LONG_PRESS, { db with state := State.PRESSED })
          else (Input.NONE, db)) ∧
    (db.state = State.IDLE → db.update reading tm = (Input.NONE, db)) ∧
    (db.state = State.PRESSED → db.update reading tm = (Input.NONE, db)) := by
  have hu : db.update reading tm = db.dwellStep tm := by
    rw [update_dwell db reading tm h1 h2, Nat.mod_eq_of_lt htm]
  refine ⟨?_, ?_, ?_, ?_, ?_, ?_, ?_⟩ <;>
    (intro hs; rw [hu]; unfold DB.dwellStep; rw [hs])

/-- Witness for C2: fresh default instance dwelling in `IDLE` at `t = 5`. -/
theorem c2_witness : (mk true).update false 5 = (Input.NONE, mk true) :=
  (c2_dwell_transitions (mk true) false 5 (by decide) (by decide)
    (by decide)).2.2.2.2.2.1 rfl

theorem alternating_tail {p : Bool × Nat} {rest : List (Bool × Nat)}
    (h : alternating (p :: rest) = true) : alternating rest = true := by
  cases rest with
  | nil => rfl
  | cons q rest2 =>
      simp only [alternating, Bool.and_eq_true] at h
      exact h.2

theorem alternating_head {p q : Bool × Nat} {rest : List (Bool × Nat)}
    (h : alternating (p :: q :: rest) = true) : q.1 ≠ p.1 := by
  simp only [alternating, Bool.and_eq_true, bne_iff_ne] at h
  exact fun he => h.1 he.symm

/-- Debounced-reading change is only possible in the accepting branch: in a
single `update` call from any state, if `debounced_reading` changed, then
the normalized reading was stable and the debounce interval had elapsed. -/
theorem debounce_change_needs_stability (db : DB) (reading : Bool) (tm : Nat)
    (hle : db.last_reading_change_tm ≤ tm) (htm : tm < U32MOD)
    (hchg : (db.update reading tm).2.debounced_reading ≠ db.debounced_reading) :
    db.normalize reading = db.prev_reading ∧
      DEBOUNCE_MS ≤ tm - db.last_reading_change_tm := by
  by_cases h1 : db.normalize reading = db.prev_reading
  · by_cases h2 : db.normalize reading = db.debounced_reading
    · rw [update_dwell db reading tm h1 h2] at hchg
      exact absurd (dwellStep_frame db (tm % U32MOD)).2.1 hchg
    · by_cases h3 : sub32 (tm % U32MOD) db.last_reading_change_tm < DEBOUNCE_MS
      · rw [update_reject db reading tm h1 h2 h3] at hchg
        exact absurd rfl hchg
      · refine ⟨h1, ?_⟩
        rw [Nat.mod_eq_of_lt htm, sub32_of_le hle htm] at h3
        omega
  · rw [update_change db reading tm h1] at hchg
    exact absurd rfl hchg

/-- Running any alternating script from an idle, unpressed state keeps the
instance idle and unpressed and only ever returns `NONE`.  The side
condition on the head of the script says the first reading either differs
from `prev_reading` (so it restarts the debounce window) or is already the
unpressed value. -/
theorem alternating_run_aux :
    ∀ (script : List (Bool × Nat)) (db : DB),
      db.pressed_state = true → db.state = State.IDLE →
      db.debounced_reading = false →
      alternating script = true →
      (∀ r t rest', script = (r, t) :: rest' →
        r ≠ db.prev_reading ∨ r = false) →
      runOutputs db script = script.map (fun _ => Input.NONE) ∧
      ∀ n, (runState db (List.take n script)).debounced_reading = false := by
  intro script
  induction script with
  | nil =>
      intro db _ _ hd _ _
      exact ⟨rfl, fun n => by rw [List.take_nil]; exact hd⟩
  | cons p rest ih =>
      intro db hp hs hd halt hgood
      obtain ⟨r, t⟩ := p
      have hn : db.normalize r = r := by simp [DB.normalize, hp]
      have hgood' : ∀ r2 t2 rest2, rest = (r2, t2) :: rest2 →
          r2 ≠ r ∨ r2 = false := by
        intro r2 t2 rest2 he
        subst he
        exact Or.inl (alternating_head halt)
      by_cases hpr : r = db.prev_reading
      · have hf : r = false := by
          rcases hgood r t rest rfl with hne | hfalse
          · exact absurd hpr hne
          · exact hfalse
        have hstep : db.update r t = (Input.NONE, db) := by
          rw [update_dwell db r t (hn.trans hpr) (by rw [hn, hf, hd])]
          unfold DB.dwellStep
          rw [hs]
        have hrec := ih db hp hs hd (alternating_tail halt)
          (fun r2 t2 rest2 he => (hgood' r2 t2 rest2 he).imp_left
            (fun hne2 => by rw [hpr] at hne2; exact hne2))
        refine ⟨?_, ?_⟩
        · show (db.update r t).1 :: runOutputs (db.update r t).2 rest = _
          rw [hstep]
          exact congrArg (Input.NONE :: ·) hrec.1
        · intro n
          cases n with
          | zero => exact hd
          | succ m =>
              show (runState (db.update r t).2 (List.take m rest)).debounced_reading = false
              rw [hstep]
              exact hrec.2 m
      · have hstep := update_change db r t (by rw [hn]; exact hpr)
        rw [hn] at hstep
        have hrec := ih
          { db with last_reading_change_tm := t % U32MOD, prev_reading := r }
          hp hs hd (alternating_tail halt)
          (fun r2 t2 rest2 he => (hgood' r2 t2 rest2 he).imp_left id)
        refine ⟨?_, ?_⟩
        · show (db.update r t).1 :: runOutputs (db.update r t).2 rest = _
          rw [hstep]
          exact congrArg (Input.NONE :: ·) hrec.1
        · intro n
          cases n with
          | zero => exact hd
          | succ m =>
              show (runState (db.update r t).2 (List.take m rest)).debounced_reading = false
              rw [hstep]
              exact hrec.2 m

/-- C3 (confirmed).  First part: in any call made with a timestamp not
earlier than the last raw change time, `debounced_reading` changes only if
the normalized reading was stable and had held for at least `DEBOUNCE_MS`
since the last raw change.  Second part: a raw reading that alternates on
every call (with non-decreasing timestamps and inter-change gaps below
`DEBOUNCE_MS`) never changes `debounced_reading` at any prefix of the run
and every call returns `NONE`. -/
theorem c3_debounce_suppression :
    (∀ (db : DB) (reading : Bool) (tm : Nat),
        db.last_reading_change_tm ≤ tm → tm < U32MOD →
        (db.update reading tm).2.debounced_reading ≠ db.debounced_reading →
        db.normalize reading = db.prev_reading ∧
          DEBOUNCE_MS ≤ tm - db.last_reading_change_tm) ∧
    (∀ script : List (Bool × Nat),
        timesSorted script = true → gapsLt DEBOUNCE_MS script = true →
        alternating script = true →
        runOutputs (mk true) script = script.map (fun _ => Input.NONE) ∧
        ∀ n, (runState (mk true) (List.take n script)).debounced_reading = false) := by
  refine ⟨debounce_change_needs_stability, ?_⟩
  intro script _ _ halt
  refine alternating_run_aux script (mk true) rfl rfl rfl halt ?_
  intro r _ _ _
  cases r with
  | false => exact Or.inr rfl
  | true => exact Or.inl (by decide)

/-- Witness for C3: the first part at the state just before a press is
accepted (change at `t = 25`), the second at the alternating script
`[(true,0), (false,10), (true,15)]`. -/
theorem c3_witness :
    ((⟨true, State.IDLE, true, false, 0, 0, 0⟩ : DB).normalize true =
        (⟨true, State.IDLE, true, false, 0, 0, 0⟩ : DB).prev_reading ∧
      DEBOUNCE_MS ≤
        25 - (⟨true, State.IDLE, true, false, 0, 0, 0⟩ : DB).last_reading_change_tm) ∧
    (runOutputs (mk true) [(true, 0), (false, 10), (true, 15)] =
        [Input.NONE, Input.NONE, Input.NONE] ∧
      (runState (mk true)
          (List.take 2 [(true, 0), (false, 10), (true, 15)])).debounced_reading = false) := by
  refine ⟨c3_debounce_suppression.1 ⟨true, State.IDLE, true, false, 0, 0, 0⟩
      true 25 (by decide) (by decide) (by decide), ?_, ?_⟩
  · exact (c3_debounce_suppression.2 [(true, 0), (false, 10), (true, 15)]
      (by decide) (by decide) (by decide)).1
  · exact (c3_debounce_suppression.2 [(true, 0), (false, 10), (true, 15)]
      (by decide) (by decide) (by decide)).2 2

/-- The dwell branch from `CLICKED_PENDING`, isolated. -/
theorem clickedPending_step (db : DB) (r : Bool) (tm : Nat)
    (h1 : db.normalize r = db.prev_reading)
    (h2 : db.normalize r = db.debounced_reading)
    (hs : db.state = State.CLICKED_PENDING) :
    db.update r tm =
      if db.duration (tm % U32MOD) > DOUBLE_CLICK_TIMEOUT_MS then
        (Input.CLICK, { db with state := State.IDLE })
      else (Input.NONE, db) := by
  rw [update_dwell db r tm h1 h2]
  unfold DB.dwellStep
  rw [hs]

/-- From an idle, unpressed, default-polarity state, `false` readings only
ever return `NONE` and leave the state untouched. -/
theorem idle_false_forever (db : DB) (hp : db.pressed_state = true)
    (hpr : db.prev_reading = false) (hd : db.debounced_reading = false)
    (hs : db.state = State.IDLE) :
    ∀ ts : List Nat,
      runOutputs db (ts.map (fun t => (false, t))) =
        ts.map (fun _ => Input.NONE) := by
  intro ts
  induction ts with
  | nil => rfl
  | cons t ts ih =>
      have hn : db.normalize false = false := by simp [DB.normalize, hp]
      have hstep : db.update false t = (Input.NONE, db) := by
        rw [update_dwell db false t (by rw [hn, hpr]) (by rw [hn, hd])]
        unfold DB.dwellStep
        rw [hs]
      show (db.update false t).1 ::
          runOutputs (db.update false t).2 (ts.map (fun u => (false, u))) = _
      rw [hstep]
      exact congrArg (Input.NONE :: ·) ih

/-- The outputs the later `update(false, t)` calls of the single-click
scenario actually produce: `NONE` until the first timestamp strictly past
330 (= 180 + `DOUBLE_CLICK_TIMEOUT_MS`), a single `CLICK` there, and `NONE`
ever after. -/
def clickExpected : List Nat → List Input
  | [] => []
  | t :: ts =>
      if 330 < t then Input.CLICK :: ts.map (fun _ => Input.NONE)
      else Input.NONE :: clickExpected ts

/-- Driving the post-release state of the single-click scenario with
`update(false, t)` calls yields `clickExpected`. -/
theorem clicked_pending_tail :
    ∀ ts : List Nat, (∀ t ∈ ts, 180 < t ∧ t < U32MOD) →
      runOutputs (⟨true, State.CLICKED_PENDING, false, false, 160, 180, 20⟩ : DB)
        (ts.map (fun t => (false, t))) = clickExpected ts := by
  intro ts
  induction ts with
  | nil => intro _; rfl
  | cons t ts ih =>
      intro hts
      obtain ⟨ht1, ht2⟩ := hts t (List.mem_cons_self t ts)
      have hstep := clickedPending_step
        (⟨true, State.CLICKED_PENDING, false, false, 160, 180, 20⟩ : DB)
        false t rfl rfl rfl
      rw [Nat.mod_eq_of_lt ht2] at hstep
      have hdur :
          (⟨true, State.CLICKED_PENDING, false, false, 160, 180, 20⟩ : DB).duration t =
            t - 180 := by
        show max 0 (sub32 t 180) = t - 180
        rw [sub32_of_le (by omega) ht2]
        exact Nat.zero_max _
      rw [hdur] at hstep
      show ((⟨true, State.CLICKED_PENDING, false, false, 160, 180, 20⟩ : DB).update false t).1 ::
          runOutputs
            ((⟨true, State.CLICKED_PENDING, false, false, 160, 180, 20⟩ : DB).update false t).2
            (ts.map (fun u => (false, u))) = clickExpected (t :: ts)
      by_cases hc : 330 < t
      · rw [if_pos (show t - 180 > DOUBLE_CLICK_TIMEOUT_MS by
          show (150 : Nat) < t - 180; omega)] at hstep
        rw [hstep]
        simp only [clickExpected, if_pos hc]
        exact congrArg (Input.CLICK :: ·) (idle_false_forever _ rfl rfl rfl rfl ts)
      · rw [if_neg (show ¬ t - 180 > DOUBLE_CLICK_TIMEOUT_MS by
          show ¬ (150 : Nat) < t - 180; omega)] at hstep
        rw [hstep]
        simp only [clickExpected, if_neg hc]
        exact congrArg (Input.NONE :: ·)
          (ih (fun u hu => hts u (List.mem_cons_of_mem t hu)))

/-- C7 counterexample.  The claim says the Click arrives at the call
timestamped 351 and at no call before it; but with later calls at 331 and
351 the code emits `CLICK` already at 331 (duration since the debounced
release at 180 is 151 > 150) and `NONE` at 351. -/
theorem c7_counterexample :
    runOutputs (mk true)
        [(true, 0), (true, 20), (false, 160), (false, 180), (false, 331), (false, 351)] =
      [Input.NONE, Input.NONE, Input.NONE, Input.NONE, Input.CLICK, Input.NONE] := rfl

/-- C7 (corrected).  After `update(true,0)`, `update(true,20)`,
`update(false,160)`, `update(false,180)` (all returning `NONE`), later
`update(false, t)` calls emit `Click` exactly once, at the first call whose
timestamp is strictly greater than 330 = 180 + `DOUBLE_CLICK_TIMEOUT_MS`
(which is t = 331 under dense polling and t = 351 only if no call falls in
[331, 350]), and `NONE` at every other call. -/
theorem c7_single_click (ts : List Nat)
    (hts : ∀ t ∈ ts, 180 < t ∧ t < U32MOD) :
    runOutputs (mk true)
        ([(true, 0), (true, 20), (false, 160), (false, 180)] ++
          ts.map (fun t => (false, t))) =
      [Input.NONE, Input.NONE, Input.NONE, Input.NONE] ++ clickExpected ts := by
  rw [runOutputs_append]
  have h1 : runOutputs (mk true) [(true, 0), (true, 20), (false, 160), (false, 180)] =
      [Input.NONE, Input.NONE, Input.NONE, Input.NONE] := rfl
  have h2 : runState (mk true) [(true, 0), (true, 20), (false, 160), (false, 180)] =
      ⟨true, State.CLICKED_PENDING, false, false, 160, 180, 20⟩ := rfl
  rw [h1, h2, clicked_pending_tail ts hts]

/-- Witness for C7's amended theorem with later calls at 331 and 351. -/
theorem c7_witness :
    runOutputs (mk true)
        ([(true, 0), (true, 20), (false, 160), (false, 180)] ++
          [331, 351].map (fun t => (false, t))) =
      [Input.NONE, Input.NONE, Input.NONE, Input.NONE] ++ clickExpected [331, 351] :=
  c7_single_click [331, 351] (by decide)

theorem runOutputs_cons (db : DB) (r : Bool) (t : Nat) (rest : List (Bool × Nat)) :
    runOutputs db ((r, t) :: rest) =
      (db.update r t).1 :: runOutputs (db.update r t).2 rest := rfl

theorem invScript_cons (r : Bool) (t : Nat) (rest : List (Bool × Nat)) :
    invScript ((r, t) :: rest) = (!r, t) :: invScript rest := rfl

/-- The accepting branch in closed form: `edgeStep` realises exactly the
spec's edge-driven transition table. -/
theorem edgeStep_eq (db : DB) (r : Bool) (tm : Nat) :
    db.edgeStep r tm =
      (specEdgeEmit db.state,
        { db with
            state := specEdgeNext db.state
            debounced_reading := r
            prev_last_change_tm := db.last_change_tm
            last_change_tm := tm }) := by
  unfold DB.edgeStep
  cases db.state <;> rfl

/-- Simulation between a default-polarity instance and an inverted-polarity
instance fed the negated readings.  The two instance states may disagree on
`last_reading_change_tm` only while the debounced reading coincides with
the previous reading (so the disagreement is unobservable). -/
theorem sim_run :
    ∀ (script : List (Bool × Nat)) (st : State) (pr dr : Bool)
      (l1 l2 lc plc : Nat), (l1 = l2 ∨ dr = pr) →
      runOutputs (⟨true, st, pr, dr, l1, lc, plc⟩ : DB) script =
        runOutputs (⟨false, st, pr, dr, l2, lc, plc⟩ : DB) (invScript script) := by
  intro script
  induction script with
  | nil => intro st pr dr l1 l2 lc plc _; rfl
  | cons p rest ih =>
      intro st pr dr l1 l2 lc plc hl
      obtain ⟨r, t⟩ := p
      have hna : (⟨true, st, pr, dr, l1, lc, plc⟩ : DB).normalize r = r := rfl
      have hnb : (⟨false, st, pr, dr, l2, lc, plc⟩ : DB).normalize (!r) = r := by
        simp [DB.normalize]
      rw [invScript_cons, runOutputs_cons, runOutputs_cons]
      by_cases hpr : r = pr
      · by_cases hdr : r = dr
        · -- dwell on both sides; `last_reading_change_tm` is not consulted
          have hdp : dr = pr := hdr.symm.trans hpr
          rw [update_dwell _ r t (by rw [hna]; exact hpr) (by rw [hna]; exact hdr),
            update_dwell _ (!r) t (by rw [hnb]; exact hpr) (by rw [hnb]; exact hdr)]
          cases st <;> unfold DB.dwellStep <;> dsimp only [DB.duration] <;>
            (try split) <;>
            exact congrArg₂ List.cons rfl (ih _ _ _ _ _ _ _ (Or.inr hdp))
        · -- the debounced reading differs from the (stable) reading, so the
          -- two `last_reading_change_tm` values must agree
          have hl12 : l1 = l2 := hl.resolve_right (fun h => hdr (hpr.trans h.symm))
          subst hl12
          by_cases hlt : sub32 (t % U32MOD) l1 < DEBOUNCE_MS
          · rw [update_reject _ r t (by rw [hna]; exact hpr)
                (by rw [hna]; exact hdr) hlt,
              update_reject _ (!r) t (by rw [hnb]; exact hpr)
                (by rw [hnb]; exact hdr) hlt]
            exact congrArg₂ List.cons rfl (ih _ _ _ _ _ _ _ (Or.inl rfl))
          · rw [update_accept _ r t (by rw [hna]; exact hpr)
                (by rw [hna]; exact hdr) hlt,
              update_accept _ (!r) t (by rw [hnb]; exact hpr)
                (by rw [hnb]; exact hdr) hlt, hna, hnb,
              edgeStep_eq, edgeStep_eq]
            dsimp only
            exact congrArg₂ List.cons rfl (ih _ _ _ _ _ _ _ (Or.inl rfl))
      · -- raw change on both sides
        have ha := update_change (⟨true, st, pr, dr, l1, lc, plc⟩ : DB) r t
          (by rw [hna]; exact hpr)
        have hb := update_change (⟨false, st, pr, dr, l2, lc, plc⟩ : DB) (!r) t
          (by rw [hnb]; exact hpr)
        rw [hna] at ha
        rw [hnb] at hb
        rw [ha, hb]
        dsimp only
        exact congrArg₂ List.cons rfl (ih _ _ _ _ _ _ _ (Or.inl rfl))

/-- C6 counterexample.  For the script `[(true,100), (true,250)]` the
default instance returns `[NONE, NONE]` while the inverted instance fed the
negated readings returns `[NONE, LONG_PRESS]`: the constructor initializes
`_prev_reading = !pressed_state` in raw polarity, so an inverted instance
starts out believing it already saw a *pressed* normalized reading and
accepts a press without any raw edge. -/
theorem c6_counterexample :
    timesSorted [(true, 100), (true, 250)] = true ∧
    runOutputs (mk false) (invScript [(true, 100), (true, 250)]) ≠
      runOutputs (mk true) [(true, 100), (true, 250)] := by
  decide

/-- C6 (corrected).  Polarity inversion does hold for every script with
non-decreasing timestamps whose first raw reading is `false` (the
un-pressed value for the default polarity): the inverted instance fed the
pointwise-negated script returns exactly the default instance's outputs. -/
theorem c6_polarity_inversion (t0 : Nat) (rest : List (Bool × Nat))
    (_hsorted : timesSorted ((false, t0) :: rest) = true) :
    runOutputs (mk false) (invScript ((false, t0) :: rest)) =
      runOutputs (mk true) ((false, t0) :: rest) := by
  have ha : (mk true).update false t0 = (Input.NONE, mk true) := by
    rw [update_dwell (mk true) false t0 rfl rfl]
    rfl
  have hb : (mk false).update (!false) t0 =
      (Input.NONE, (⟨false, State.IDLE, false, false, t0 % U32MOD, 0, 0⟩ : DB)) :=
    update_change (mk false) (!false) t0 (by decide)
  rw [invScript_cons, runOutputs_cons, runOutputs_cons, ha, hb]
  exact congrArg₂ List.cons rfl
    (sim_run rest State.IDLE false false 0 (t0 % U32MOD) 0 0 (Or.inr rfl)).symm

/-- Witness for C6's amended theorem on a small un-pressed-first script. -/
theorem c6_witness :
    runOutputs (mk false) (invScript [(false, 5), (true, 30)]) =
      runOutputs (mk true) [(false, 5), (true, 30)] :=
  c6_polarity_inversion 5 [(true, 30)] (by decide)

end DebouncedButton
